import Mathlib

/-!
Verification of the CRC notifier's trust-network accrual aggregation engine.

This file is a shallow embedding of the program's utility module
(`circles-utils`) and of the `useCircles` hook and `CRCNotifier` component
(`crc-notifier.tsx`). Timestamps are modelled as rational numbers of
epoch milliseconds (JavaScript `Date.getTime()`), CRC amounts as rational
numbers; `throw` is modelled with `Except`, and the remote ledger reads
(avatar info, balances, last personalMint time) are modelled as an
environment of lookup functions, so that every definition is executable.
-/

namespace CRCNotifier

/-! ## Constants (circles-utils lines 99-104 and crc-notifier.tsx lines 445-448) -/

/-- Daily CRC allocation (24 CRC per day), from the utility module. -/
def DAILY_CRC_ALLOCATION : ℚ := 24

/-- Hourly CRC allocation, from the utility module. -/
def HOURLY_CRC_ALLOCATION : ℚ := 1

/-- Maximum days worth of CRC that can accumulate, from the utility module. -/
def MAX_UNCLAIMED_DAYS : ℚ := 7

/-- Milliseconds per hour: the `1000 * 60 * 60` divisor used by both
accrual implementations. -/
def MS_PER_HOUR : ℚ := 1000 * 60 * 60

/-! ## Severity classification and needs-reminder predicate (circles-utils) -/

/-- Return type of `getReminderPriority`:
the union type `"low" | "medium" | "high" | "urgent"`. -/
inductive Priority where
  | low
  | medium
  | high
  | urgent
deriving DecidableEq

/-- `needsReminder` (circles-utils lines 63-65):
`unclaimed >= DAILY_CRC_ALLOCATION`. -/
def needsReminder (unclaimed : ℚ) : Bool :=
  decide (unclaimed ≥ DAILY_CRC_ALLOCATION)

/-- `getReminderPriority` (circles-utils lines 70-78). Note that the final
fallback branch for amounts below the daily allocation also returns `low`. -/
def getReminderPriority (unclaimed : ℚ) : Priority :=
  if unclaimed ≥ DAILY_CRC_ALLOCATION * 5 then Priority.urgent
  else if unclaimed ≥ DAILY_CRC_ALLOCATION * 3 then Priority.high
  else if unclaimed ≥ DAILY_CRC_ALLOCATION * 2 then Priority.medium
  else if unclaimed ≥ DAILY_CRC_ALLOCATION then Priority.low
  else Priority.low

/-! ## Accrual calculators -/

/-- The error conditions of the two `calculateUnclaimedCRC` implementations:
`noClaimHistory` models the "No last personalMint transaction found" /
"No last claim time available" throws, `futureTimestamp` models the
"Date is in the future" throw of the utility version. -/
inductive AccrualError where
  | noClaimHistory
  | futureTimestamp
deriving DecidableEq

namespace CirclesUtils

/-- `calculateUnclaimedCRC` from the utility module (circles-utils
lines 110-135). `now` is passed explicitly in place of `new Date()`. -/
def calculateUnclaimedCRC (lastPersonalMintTime : Option ℚ) (now : ℚ) :
    Except AccrualError ℚ :=
  match lastPersonalMintTime with
  | none => Except.error AccrualError.noClaimHistory
  | some t =>
    let hoursSinceLastClaim := (now - t) / MS_PER_HOUR
    if hoursSinceLastClaim < 0 then Except.error AccrualError.futureTimestamp
    else
      let maxHours := MAX_UNCLAIMED_DAYS * 24
      let cappedHours := min hoursSinceLastClaim maxHours
      Except.ok (cappedHours * HOURLY_CRC_ALLOCATION)

end CirclesUtils

namespace UseCircles

/-- `CRC_PER_HOUR` from crc-notifier.tsx line 446. -/
def CRC_PER_HOUR : ℚ := 1

/-- `CRC_PER_DAY` from crc-notifier.tsx line 447. -/
def CRC_PER_DAY : ℚ := 24

/-- `calculateUnclaimedCRC` from the `useCircles` hook (crc-notifier.tsx
lines 539-559). Unlike the utility version it has no future-timestamp
throw: it clamps negative elapsed hours to 0 with
`Math.min(Math.max(0, hoursSinceLastClaim), maxHours)`. -/
def calculateUnclaimedCRC (lastClaimTime : Option ℚ) (now : ℚ) :
    Except AccrualError ℚ :=
  match lastClaimTime with
  | none => Except.error AccrualError.noClaimHistory
  | some t =>
    let hoursSinceLastClaim := (now - t) / MS_PER_HOUR
    let maxHours : ℚ := 7 * 24
    let cappedHours := min (max 0 hoursSinceLastClaim) maxHours
    Except.ok (cappedHours * CRC_PER_HOUR)

end UseCircles

/-! ## Data model (crc-notifier.tsx lines 457-474) and the ledger environment -/

/-- A trust relation row as consumed by `fetchUserData`: the
`{truster, trustee}` pair returned by `getTrustRelations`. -/
structure TrustRelation where
  truster : String
  trustee : String
deriving DecidableEq

/-- Result of `getAvatarInfo`, reduced to the one field the engine reads
(`displayName`); all other metadata of the opaque `any` value is not
observed by the code under verification. -/
structure AvatarInfo where
  displayName : Option String
deriving DecidableEq

/-- `TrustedConnection` interface (crc-notifier.tsx lines 457-465). -/
structure TrustedConnection where
  address : String
  name : Option String
  balance : ℚ
  unclaimed : ℚ
  lastClaim : Option ℚ
  isMutualTrust : Bool
  avatarInfo : Option AvatarInfo
deriving DecidableEq

/-- `CirclesUserData` interface (crc-notifier.tsx lines 467-474). -/
structure CirclesUserData where
  address : String
  totalBalance : ℚ
  unclaimed : ℚ
  trustedConnections : List TrustedConnection
  isSignedUp : Bool
  avatarInfo : Option AvatarInfo
deriving DecidableEq

/-- The remote ledger reads performed by `fetchUserData`, as pure lookup
functions: `avatarInfo` models `getAvatarInfo` (`none` = not found),
`balance` models the settled v1+v2 balance sum (fetch failures already
degraded to 0 as in the source), and `lastClaim` models
`getLastPersonalMintTime` (`none` = no personalMint transaction found). -/
structure Env where
  avatarInfo : String → Option AvatarInfo
  balance : String → ℚ
  lastClaim : String → Option ℚ

/-- The counterpart of a relation relative to the root address: the inline
ternary `relation.truster === address ? relation.trustee : relation.truster`
(crc-notifier.tsx lines 648-651). -/
def counterpartOf (address : String) (relation : TrustRelation) : String :=
  if relation.truster = address then relation.trustee else relation.truster

/-- One iteration of the `for (const relation of trustRelations)` loop of
`fetchUserData` (crc-notifier.tsx lines 646-724): `none` models `continue`
(self-reference skip, and the catch-and-skip around
`calculateUnclaimedCRC`), `some` models the `trustedConnections.push`. -/
def processRelation (address : String) (trustRelations : List TrustRelation)
    (env : Env) (now : ℚ) (relation : TrustRelation) :
    Option TrustedConnection :=
  let otherAddress := counterpartOf address relation
  if otherAddress = address then none
  else
    let mutualFlag := trustRelations.any fun r =>
      (r.truster == otherAddress && r.trustee == address) ||
      (r.truster == address && r.trustee == otherAddress)
    let connectionAvatarInfo := env.avatarInfo otherAddress
    let connectionBalance := env.balance otherAddress
    let lastClaimTime := env.lastClaim otherAddress
    match UseCircles.calculateUnclaimedCRC lastClaimTime now with
    | Except.error _ => none
    | Except.ok unclaimedAmount =>
      some {
        address := otherAddress
        name :=
          match connectionAvatarInfo with
          | some info =>
            match info.displayName with
            | some n => if n = "" then none else some n
            | none => none
          | none => none
        balance := connectionBalance
        unclaimed := unclaimedAmount
        lastClaim := lastClaimTime
        isMutualTrust := mutualFlag
        avatarInfo := connectionAvatarInfo }

/-- The full relation loop: the `trustedConnections` list built by
`fetchUserData` before deduplication. -/
def buildTrustedConnections (address : String)
    (trustRelations : List TrustRelation) (env : Env) (now : ℚ) :
    List TrustedConnection :=
  trustRelations.filterMap (processRelation address trustRelations env now)

/-- Worker for `dedupByAddress`, tracking the running index of the JS
`filter((conn, index, self) => index === self.findIndex(...))` callback;
`self` is the whole list being filtered. -/
def dedupGo (self : List TrustedConnection) (i : ℕ) :
    List TrustedConnection → List TrustedConnection
  | [] => []
  | c :: rest =>
    if self.findIdx (fun d => d.address == c.address) = i
    then c :: dedupGo self (i + 1) rest
    else dedupGo self (i + 1) rest

/-- `uniqueConnections` deduplication (crc-notifier.tsx lines 727-731):
`trustedConnections.filter((conn, index, self) =>
index === self.findIndex((c) => c.address === conn.address))`. -/
def dedupByAddress (conns : List TrustedConnection) : List TrustedConnection :=
  dedupGo conns 0 conns

/-- Reference formulation of first-occurrence deduplication used only in
proofs: keeps a connection iff its address is not in `seen`, where `seen`
accumulates every address already passed. Proved equal to `dedupByAddress`. -/
def keepFirstAux (seen : List String) :
    List TrustedConnection → List TrustedConnection
  | [] => []
  | c :: rest =>
    if c.address ∈ seen
    then keepFirstAux (seen ++ [c.address]) rest
    else c :: keepFirstAux (seen ++ [c.address]) rest

/-- The deduplicated connection list returned by an aggregation call. -/
def trustedConnectionsOf (address : String)
    (trustRelations : List TrustRelation) (env : Env) (now : ℚ) :
    List TrustedConnection :=
  dedupByAddress (buildTrustedConnections address trustRelations env now)

/-- `fetchUserData` (crc-notifier.tsx lines 592-754), restricted to the
data it computes: avatar existence check (throwing "not signed up"),
balance, the deduplicated connection list, and the root's own unclaimed
amount with its catch-and-degrade-to-0 handler and final `Math.max(0, ·)`. -/
def fetchUserData (address : String) (trustRelations : List TrustRelation)
    (env : Env) (now : ℚ) : Except String CirclesUserData :=
  match env.avatarInfo address with
  | none => Except.error "Address is not signed up to Circles"
  | some avatar =>
    let totalBalance := env.balance address
    let uniqueConnections := trustedConnectionsOf address trustRelations env now
    let userUnclaimed :=
      match UseCircles.calculateUnclaimedCRC (env.lastClaim address) now with
      | Except.ok v => v
      | Except.error _ => 0
    Except.ok {
      address := address
      totalBalance := totalBalance
      unclaimed := max 0 userUnclaimed
      trustedConnections := uniqueConnections
      isSignedUp := true
      avatarInfo := some avatar }

/-- How the component renders the root's unclaimed amount
(crc-notifier.tsx lines 215-231): a formatted amount when
`circlesData.unclaimed > 0`, otherwise the "⚠️ Unknown" branch. -/
inductive RootUnclaimedView where
  | amount (text : String)
  | unknown
deriving DecidableEq

/-- The root-balance card's unclaimed display selector from the component. -/
def rootUnclaimedDisplay (d : CirclesUserData) : RootUnclaimedView :=
  if d.unclaimed > 0 then RootUnclaimedView.amount (toString d.unclaimed)
  else RootUnclaimedView.unknown

/-! ## Display formatting (circles-utils) -/

/-- `toFixed(1)` on a non-negative rational, per the ECMAScript algorithm:
the integer `n` with `n / 10` closest to `x`, ties picking the larger `n`,
rendered with one decimal digit. -/
def toFixed1Nonneg (x : ℚ) : String :=
  let n := (⌊x * 10 + 1 / 2⌋).toNat
  toString (n / 10) ++ "." ++ toString (n % 10)

/-- `Number.prototype.toFixed(1)`: sign is extracted first, then the
non-negative value is rounded (binary floating-point representation error
is not modelled; inputs are exact rationals). -/
def toFixed1 (x : ℚ) : String :=
  if x < 0 then "-" ++ toFixed1Nonneg (-x) else toFixed1Nonneg x

/-- `formatCRCBalance` (circles-utils lines 49-57) at its default
`decimals = 1`, on a numeric input (the string/NaN branches concern
non-numeric inputs that cannot arise in this model): `num.toFixed(1)`. -/
def formatCRCBalance (balance : ℚ) : String :=
  toFixed1 balance

/-- JavaScript `Math.floor`. -/
def jsFloor (q : ℚ) : ℤ := ⌊q⌋

/-- JavaScript truncation toward zero, used by the `%` operator. -/
def jsTrunc (q : ℚ) : ℤ := if 0 ≤ q then ⌊q⌋ else ⌈q⌉

/-- JavaScript remainder `a % b` (sign of the dividend):
`a - b * trunc(a / b)`. -/
def jsRem (a b : ℚ) : ℚ := a - b * (jsTrunc (a / b) : ℚ)

/-- `getUnclaimedDescription` (circles-utils lines 83-96). -/
def getUnclaimedDescription (unclaimed : ℚ) : String :=
  let days := jsFloor (unclaimed / DAILY_CRC_ALLOCATION)
  let remainingHours := jsFloor (jsRem unclaimed DAILY_CRC_ALLOCATION)
  if days = 0 then
    toString remainingHours ++ " hours of unclaimed CRC"
  else if days = 1 ∧ remainingHours = 0 then
    "1 day of unclaimed CRC"
  else if remainingHours = 0 then
    toString days ++ " days of unclaimed CRC"
  else
    toString days ++ " days, " ++ toString remainingHours ++
      " hours of unclaimed CRC"

/-- `truncateAddress` (circles-utils lines 35-44) at its default
`startChars = 6, endChars = 4`: `slice(0, 6) + "..." + slice(-4)`. -/
def truncateAddress (address : String) : String :=
  if address = "" then ""
  else if address.length ≤ 6 + 4 then address
  else address.take 6 ++ "..." ++ address.drop (address.length - 4)

/-! ## Reminder message generation (circles-utils lines 234-268) -/

/-- The ASCII apostrophe character, as a string. -/
def apos : String := String.singleton (Char.ofNat 39)

/-- The display name used by `generateReminderMessage`:
`connection.name || truncateAddress(connection.address)` (an empty
display name is falsy and also falls back to the truncated address). -/
def displayNameFor (connection : TrustedConnection) : String :=
  match connection.name with
  | some n => if n = "" then truncateAddress connection.address else n
  | none => truncateAddress connection.address

/-- The emoji tone marker chosen by the `switch (priority)` statement. -/
def toneEmoji (priority : Priority) : String :=
  match priority with
  | Priority.urgent => "🚨"
  | Priority.high => "⏰"
  | Priority.medium => "💫"
  | Priority.low => "🪙"

/-- The urgency text chosen by the `switch (priority)` statement. -/
def toneText (priority : Priority) : String :=
  match priority with
  | Priority.urgent => " (You" ++ apos ++ "re missing out on a lot of CRC!)"
  | Priority.high => " (Don" ++ apos ++ "t let it accumulate too much!)"
  | Priority.medium => ""
  | Priority.low => ""

/-- `generateReminderMessage` (circles-utils lines 234-268). -/
def generateReminderMessage (connection : TrustedConnection) : String :=
  let name := displayNameFor connection
  let amount := formatCRCBalance connection.unclaimed
  let description := getUnclaimedDescription connection.unclaimed
  let priority := getReminderPriority connection.unclaimed
  let emoji := toneEmoji priority
  let urgencyText := toneText priority
  "Hey " ++ name ++ "! 👋 You have " ++ amount ++
    " CRC ready to redeem (" ++ description ++ ")" ++ urgencyText ++
    " Claim your Circles UBI at https://circles.garden " ++ emoji ++
    " #CirclesUBI #BasicIncome"

/-- `connectionsNeedingReminder` (crc-notifier.tsx lines 136-139):
`trustedConnections.filter((conn) => needsReminder(conn.unclaimed))`. -/
def connectionsNeedingReminder (conns : List TrustedConnection) :
    List TrustedConnection :=
  conns.filter fun conn => needsReminder conn.unclaimed

/-- The "Send All Reminders" path (crc-notifier.tsx lines 413-423):
`connectionsNeedingReminder.forEach((conn) => sendReminder(conn))`, where
each `sendReminder` composes `generateReminderMessage(connection)`. -/
def sendAllReminders (conns : List TrustedConnection) : List String :=
  (connectionsNeedingReminder conns).map generateReminderMessage

/-! ## Retry with exponential backoff (part_000 lines 399-424) -/

/-- The error shape inspected by `retryContractCall`:
`{ details?: { code?: number }, message?: string, status?: number }`. -/
structure ContractCallError where
  detailsCode : Option ℤ
  message : Option String
  status : Option ℕ
deriving DecidableEq

/-- `haystack.includes(needle)` on strings. -/
def strIncludes (haystack needle : String) : Bool :=
  decide (needle.toList <:+: haystack.toList)

/-- The rate-limit detection of `retryContractCall` (lines 410-412):
`err?.details?.code === -32016 || err?.message?.includes("rate limit")
|| err?.status === 429`. -/
def isRateLimitError (err : ContractCallError) : Bool :=
  err.detailsCode == some (-32016) ||
  (match err.message with
   | some m => strIncludes m "rate limit"
   | none => false) ||
  err.status == some 429

/-- Final outcome of `retryContractCall`: a returned value, a rethrown
error, or the (unreachable for `maxRetries ≥ 1`) trailing
`throw new Error("Max retries exceeded")`. -/
inductive RetryOutcome (α : Type) where
  | success (value : α)
  | failure (err : ContractCallError)
  | exhausted
deriving DecidableEq

/-- Observable trace of one `retryContractCall` run: its outcome, how many
times `fn` was invoked, and the backoff delays (ms) slept between
attempts, in order. -/
structure RetryTrace (α : Type) where
  outcome : RetryOutcome α
  attempts : ℕ
  delays : List ℕ
deriving DecidableEq

/-- The `for (let i = 0; i < maxRetries; i++)` loop of `retryContractCall`
(part_000 lines 400-424), from iteration `i` on. The attempt `fn i` is the
awaited call of attempt number `i`; on a rate-limit error with
`i < maxRetries - 1` the loop sleeps `baseDelay * 2 ** i` and continues,
any other error (or the last attempt's error) is rethrown. -/
def retryGo {α : Type} (fn : ℕ → Except ContractCallError α)
    (maxRetries baseDelay i : ℕ) : RetryTrace α :=
  if _h : i < maxRetries then
    match fn i with
    | Except.ok v => { outcome := RetryOutcome.success v, attempts := 1, delays := [] }
    | Except.error e =>
      if isRateLimitError e = true ∧ i < maxRetries - 1 then
        let rest := retryGo fn maxRetries baseDelay (i + 1)
        { outcome := rest.outcome
          attempts := rest.attempts + 1
          delays := baseDelay * 2 ^ i :: rest.delays }
      else { outcome := RetryOutcome.failure e, attempts := 1, delays := [] }
  else { outcome := RetryOutcome.exhausted, attempts := 0, delays := [] }
termination_by maxRetries - i
decreasing_by omega

/-- `retryContractCall(fn, maxRetries = 3, baseDelay = 1000)`. -/
def retryContractCall {α : Type} (fn : ℕ → Except ContractCallError α)
    (maxRetries baseDelay : ℕ) : RetryTrace α :=
  retryGo fn maxRetries baseDelay 0

/-! ## Concrete scenario inputs used by individual claims -/

/-- Ledger environment where only address `0xB` has a claim history
(a personalMint at epoch 0). -/
def mutualExampleEnv : Env :=
  { avatarInfo := fun _ => none
    balance := fun _ => 0
    lastClaim := fun a => if a = "0xB" then some 0 else none }

/-- Ledger environment where only address `0xB` has a claim history
(a personalMint at epoch 0). -/
def dedupExampleEnv : Env :=
  { avatarInfo := fun _ => none
    balance := fun _ => 0
    lastClaim := fun a => if a = "0xB" then some 0 else none }

/-- Ledger environment where the root is registered but no address has
any personalMint history: the root's own accrual computation fails. -/
def rootFailEnv : Env :=
  { avatarInfo := fun _ => some { displayName := none }
    balance := fun _ => 0
    lastClaim := fun _ => none }

/-- Ledger environment identical to `rootFailEnv` except that the root's
last claim is exactly at the current time, so its accrual genuinely
computes to a confirmed 0. -/
def rootZeroEnv : Env :=
  { avatarInfo := fun _ => some { displayName := none }
    balance := fun _ => 0
    lastClaim := fun _ => some 0 }

/-- A connection with 30 CRC unclaimed (above the reminder threshold). -/
def connThirty : TrustedConnection :=
  { address := "0xB", name := none, balance := 0, unclaimed := 30
    lastClaim := none, isMutualTrust := false, avatarInfo := none }

/-- A connection with 50 CRC unclaimed (above the reminder threshold,
and above `connThirty`). -/
def connFifty : TrustedConnection :=
  { address := "0xC", name := none, balance := 0, unclaimed := 50
    lastClaim := none, isMutualTrust := false, avatarInfo := none }

/-- An error carrying the distinguished rate-limit code `-32016`. -/
def rateLimitedErr : ContractCallError :=
  { detailsCode := some (-32016), message := none, status := none }

/-- A generic non-rate-limit error. -/
def plainErr : ContractCallError :=
  { detailsCode := none, message := some "execution reverted", status := none }

/-! ## Helper lemmas about `findIdx` and first-occurrence deduplication -/

theorem findIdx_append_of_forall_false {α : Type} (p : α → Bool)
    (pre l : List α) (h : ∀ d ∈ pre, p d = false) :
    (pre ++ l).findIdx p = pre.length + l.findIdx p := by
  induction pre with
  | nil => simp
  | cons d pre ih =>
    have hd : p d = false := h d (List.mem_cons_self d pre)
    have ih' := ih fun x hx => h x (List.mem_cons_of_mem d hx)
    simp only [List.cons_append, List.findIdx_cons, hd, cond_false, ih',
      List.length_cons]
    omega

theorem findIdx_append_lt {α : Type} (p : α → Bool) (pre l : List α)
    (h : ∃ d ∈ pre, p d = true) : (pre ++ l).findIdx p < pre.length := by
  induction pre with
  | nil => simp at h
  | cons d pre ih =>
    by_cases hd : p d = true
    · simp [List.findIdx_cons, hd]
    · have hex : ∃ x ∈ pre, p x = true := by
        obtain ⟨x, hx, hpx⟩ := h
        rcases List.mem_cons.mp hx with rfl | hx'
        · exact absurd hpx hd
        · exact ⟨x, hx', hpx⟩
      have hd' : p d = false := by
        cases hpd : p d
        · rfl
        · exact absurd hpd hd
      have := ih hex
      simp only [List.cons_append, List.findIdx_cons, hd', cond_false,
        List.length_cons]
      omega

theorem dedupGo_eq_keepFirstAux :
    ∀ (rest pre : List TrustedConnection),
      dedupGo (pre ++ rest) pre.length rest =
        keepFirstAux (pre.map fun c => c.address) rest := by
  intro rest
  induction rest with
  | nil => intro pre; simp [dedupGo, keepFirstAux]
  | cons c rest ih =>
    intro pre
    have hself : pre ++ c :: rest = (pre ++ [c]) ++ rest := by
      simp
    by_cases hmem : c.address ∈ pre.map fun d => d.address
    · have hex : ∃ d ∈ pre, (fun d => d.address == c.address) d = true := by
        obtain ⟨d, hd, hda⟩ := List.mem_map.mp hmem
        exact ⟨d, hd, by simp [hda]⟩
      have hlt := findIdx_append_lt (fun d => d.address == c.address)
        pre (c :: rest) hex
      have hne : ¬ (pre ++ c :: rest).findIdx
          (fun d => d.address == c.address) = pre.length :=
        Nat.ne_of_lt hlt
      have hrec := ih (pre ++ [c])
      simp only [List.append_assoc, List.singleton_append] at hrec
      simp only [dedupGo, keepFirstAux, hne, if_false, hmem, if_true]
      rw [show pre.length + 1 = (pre ++ [c]).length by simp] at *
      rw [show (pre ++ c :: rest) = (pre ++ [c]) ++ rest by simp]
      rw [ih (pre ++ [c])]
      simp
    · have hall : ∀ d ∈ pre, (fun d => d.address == c.address) d = false := by
        intro d hd
        by_cases hda : d.address = c.address
        · exact absurd (List.mem_map.mpr ⟨d, hd, hda⟩) hmem
        · simp [hda]
      have heq : (pre ++ c :: rest).findIdx
          (fun d => d.address == c.address) = pre.length := by
        rw [findIdx_append_of_forall_false _ _ _ hall]
        simp [List.findIdx_cons]
      simp only [dedupGo, keepFirstAux, heq, if_true, hmem, if_false]
      rw [show pre.length + 1 = (pre ++ [c]).length by simp]
      rw [show (pre ++ c :: rest) = (pre ++ [c]) ++ rest by simp]
      rw [ih (pre ++ [c])]
      simp

theorem dedupByAddress_eq_keepFirstAux (conns : List TrustedConnection) :
    dedupByAddress conns = keepFirstAux [] conns := by
  have := dedupGo_eq_keepFirstAux conns []
  simpa [dedupByAddress] using this

theorem keepFirstAux_sublist :
    ∀ (l : List TrustedConnection) (seen : List String),
      List.Sublist (keepFirstAux seen l) l := by
  intro l
  induction l with
  | nil => intro seen; simp [keepFirstAux]
  | cons c rest ih =>
    intro seen
    by_cases h : c.address ∈ seen
    · simp only [keepFirstAux, h, if_true]
      exact (ih _).trans (List.sublist_cons_self c rest)
    · simp only [keepFirstAux, h, if_false]
      exact List.Sublist.cons₂ c (ih _)

theorem keepFirstAux_mem_map :
    ∀ (l : List TrustedConnection) (seen : List String) (a : String),
      a ∈ (keepFirstAux seen l).map (fun c => c.address) ↔
        a ∈ l.map (fun c => c.address) ∧ a ∉ seen := by
  intro l
  induction l with
  | nil => intro seen a; simp [keepFirstAux]
  | cons c rest ih =>
    intro seen a
    by_cases h : c.address ∈ seen
    · simp only [keepFirstAux, h, if_true, List.map_cons, List.mem_cons]
      rw [ih]
      simp only [List.mem_append, List.mem_singleton, not_or]
      constructor
      · rintro ⟨hm, hns, hne⟩
        exact ⟨Or.inr hm, hns⟩
      · rintro ⟨hm, hns⟩
        rcases hm with rfl | hm
        · exact absurd h hns
        · exact ⟨hm, hns, fun heq => hns (heq ▸ h)⟩
    · simp only [keepFirstAux, h, if_false, List.map_cons, List.mem_cons]
      rw [ih]
      simp only [List.mem_append, List.mem_singleton, not_or]
      constructor
      · rintro (rfl | ⟨hm, hns, hne⟩)
        · exact ⟨Or.inl rfl, h⟩
        · exact ⟨Or.inr hm, hns⟩
      · rintro ⟨hm, hns⟩
        rcases hm with rfl | hm
        · exact Or.inl rfl
        · by_cases hac : a = c.address
          · exact Or.inl hac
          · exact Or.inr ⟨hm, hns, hac⟩

theorem keepFirstAux_nodup :
    ∀ (l : List TrustedConnection) (seen : List String),
      ((keepFirstAux seen l).map (fun c => c.address)).Nodup := by
  intro l
  induction l with
  | nil => intro seen; simp [keepFirstAux]
  | cons c rest ih =>
    intro seen
    by_cases h : c.address ∈ seen
    · simp only [keepFirstAux, h, if_true]
      exact ih _
    · simp only [keepFirstAux, h, if_false, List.map_cons, List.nodup_cons]
      refine ⟨?_, ih _⟩
      intro hmem
      have := (keepFirstAux_mem_map rest (seen ++ [c.address]) c.address).mp hmem
      exact this.2 (by simp)

theorem keepFirstAux_find :
    ∀ (l : List TrustedConnection) (seen : List String)
      (c : TrustedConnection), c ∈ keepFirstAux seen l →
      l.find? (fun d => d.address == c.address) = some c := by
  intro l
  induction l with
  | nil => intro seen c hc; simp [keepFirstAux] at hc
  | cons d rest ih =>
    intro seen c hc
    by_cases h : d.address ∈ seen
    · simp only [keepFirstAux, h, if_true] at hc
      have hcm : c.address ∈ (keepFirstAux (seen ++ [d.address]) rest).map
          (fun x => x.address) :=
        List.mem_map.mpr ⟨c, hc, rfl⟩
      have hns := ((keepFirstAux_mem_map rest _ c.address).mp hcm).2
      have hne : (d.address == c.address) = false := by
        simp only [beq_eq_false_iff_ne, ne_eq]
        intro heq
        exact hns (by simp [heq])
      rw [List.find?_cons, hne]
      exact ih _ c hc
    · simp only [keepFirstAux, h, if_false, List.mem_cons] at hc
      rcases hc with rfl | hc
      · exact List.find?_cons_of_pos _ (by simp)
      · have hcm : c.address ∈ (keepFirstAux (seen ++ [d.address]) rest).map
            (fun x => x.address) :=
          List.mem_map.mpr ⟨c, hc, rfl⟩
        have hns := ((keepFirstAux_mem_map rest _ c.address).mp hcm).2
        have hne : (d.address == c.address) = false := by
          simp only [beq_eq_false_iff_ne, ne_eq]
          intro heq
          exact hns (by simp [heq])
        rw [List.find?_cons, hne]
        exact ih _ c hc

/-! ## Helper lemmas about the relation-processing loop -/

theorem processRelation_some (address : String)
    (rels : List TrustRelation) (env : Env) (now : ℚ)
    (r : TrustRelation) (c : TrustedConnection)
    (h : processRelation address rels env now r = some c) :
    c.address = counterpartOf address r ∧ counterpartOf address r ≠ address ∧
      (UseCircles.calculateUnclaimedCRC
        (env.lastClaim (counterpartOf address r)) now).isOk = true := by
  unfold processRelation at h
  by_cases hself : counterpartOf address r = address
  · simp [hself] at h
  · simp only [hself, if_false] at h
    cases hcalc : UseCircles.calculateUnclaimedCRC
        (env.lastClaim (counterpartOf address r)) now with
    | error e => rw [hcalc] at h; simp at h
    | ok amt =>
      rw [hcalc] at h
      simp only [Option.some.injEq] at h
      subst h
      exact ⟨rfl, hself, rfl⟩

theorem processRelation_of_isOk (address : String)
    (rels : List TrustRelation) (env : Env) (now : ℚ) (r : TrustRelation)
    (hself : counterpartOf address r ≠ address)
    (hok : (UseCircles.calculateUnclaimedCRC
      (env.lastClaim (counterpartOf address r)) now).isOk = true) :
    ∃ c, processRelation address rels env now r = some c ∧
      c.address = counterpartOf address r := by
  unfold processRelation
  simp only [hself, if_false]
  cases hcalc : UseCircles.calculateUnclaimedCRC
      (env.lastClaim (counterpartOf address r)) now with
  | error e => rw [hcalc] at hok; simp [Except.isOk, Except.toBool] at hok
  | ok amt => exact ⟨_, rfl, rfl⟩

theorem trustedConnectionsOf_eq_keepFirst (address : String)
    (rels : List TrustRelation) (env : Env) (now : ℚ) :
    trustedConnectionsOf address rels env now =
      keepFirstAux [] (buildTrustedConnections address rels env now) := by
  unfold trustedConnectionsOf
  exact dedupByAddress_eq_keepFirstAux _

theorem buildTrustedConnections_address_ne (address : String)
    (rels : List TrustRelation) (env : Env) (now : ℚ)
    (c : TrustedConnection)
    (hc : c ∈ buildTrustedConnections address rels env now) :
    c.address ≠ address := by
  obtain ⟨r, hr, hpr⟩ := List.mem_filterMap.mp hc
  obtain ⟨haddr, hne, hok⟩ := processRelation_some address rels env now r c hpr
  rw [haddr]
  exact hne

/-! ## Helper lemmas about the two accrual implementations -/

theorem ms_per_hour_pos : (0 : ℚ) < MS_PER_HOUR := by
  norm_num [MS_PER_HOUR]

theorem utils_accrual_future (t now : ℚ) (h : now < t) :
    CirclesUtils.calculateUnclaimedCRC (some t) now =
      Except.error AccrualError.futureTimestamp := by
  have hneg : (now - t) / MS_PER_HOUR < 0 :=
    div_neg_of_neg_of_pos (by linarith) ms_per_hour_pos
  simp [CirclesUtils.calculateUnclaimedCRC, hneg]

theorem hook_accrual_future (t now : ℚ) (h : now < t) :
    UseCircles.calculateUnclaimedCRC (some t) now = Except.ok 0 := by
  have hneg : (now - t) / MS_PER_HOUR < 0 :=
    div_neg_of_neg_of_pos (by linarith) ms_per_hour_pos
  have hmax : max (0 : ℚ) ((now - t) / MS_PER_HOUR) = 0 :=
    max_eq_left (le_of_lt hneg)
  have hmin : min (0 : ℚ) (7 * 24) = 0 := min_eq_left (by norm_num)
  simp [UseCircles.calculateUnclaimedCRC, hmax, hmin]

theorem utils_accrual_past (t now : ℚ) (h : t ≤ now) :
    CirclesUtils.calculateUnclaimedCRC (some t) now =
      Except.ok (min ((now - t) / MS_PER_HOUR) (MAX_UNCLAIMED_DAYS * 24) *
        HOURLY_CRC_ALLOCATION) := by
  have hnn : (0 : ℚ) ≤ (now - t) / MS_PER_HOUR :=
    div_nonneg (by linarith) (le_of_lt ms_per_hour_pos)
  simp [CirclesUtils.calculateUnclaimedCRC, not_lt.mpr hnn]

theorem hook_accrual_past (t now : ℚ) (h : t ≤ now) :
    UseCircles.calculateUnclaimedCRC (some t) now =
      Except.ok (min ((now - t) / MS_PER_HOUR) (7 * 24) *
        UseCircles.CRC_PER_HOUR) := by
  have hnn : (0 : ℚ) ≤ (now - t) / MS_PER_HOUR :=
    div_nonneg (by linarith) (le_of_lt ms_per_hour_pos)
  have hmax : max (0 : ℚ) ((now - t) / MS_PER_HOUR) = (now - t) / MS_PER_HOUR :=
    max_eq_right hnn
  simp [UseCircles.calculateUnclaimedCRC, hmax]

theorem utils_accrual_ok_nonneg (t now a : ℚ)
    (h : CirclesUtils.calculateUnclaimedCRC (some t) now = Except.ok a) :
    0 ≤ a := by
  unfold CirclesUtils.calculateUnclaimedCRC at h
  by_cases hneg : (now - t) / MS_PER_HOUR < 0
  · simp [hneg] at h
  · simp only [hneg, if_false, Except.ok.injEq] at h
    have hmin : (0 : ℚ) ≤ min ((now - t) / MS_PER_HOUR)
        (MAX_UNCLAIMED_DAYS * 24) :=
      le_min (not_lt.mp hneg) (by norm_num [MAX_UNCLAIMED_DAYS])
    rw [← h]
    have : HOURLY_CRC_ALLOCATION = 1 := rfl
    rw [this, mul_one]
    exact hmin

theorem hook_accrual_ok_nonneg (t now a : ℚ)
    (h : UseCircles.calculateUnclaimedCRC (some t) now = Except.ok a) :
    0 ≤ a := by
  unfold UseCircles.calculateUnclaimedCRC at h
  simp only [Except.ok.injEq] at h
  have hmin : (0 : ℚ) ≤ min (max 0 ((now - t) / MS_PER_HOUR)) (7 * 24) :=
    le_min (le_max_left 0 _) (by norm_num)
  rw [← h]
  have : UseCircles.CRC_PER_HOUR = 1 := rfl
  rw [this, mul_one]
  exact hmin

/-! ## Claim C2 -/

theorem needsReminder_iff (u : ℚ) :
    needsReminder u = true ↔ DAILY_CRC_ALLOCATION ≤ u := by
  simp [needsReminder, ge_iff_le]

theorem getReminderPriority_urgent_iff (u : ℚ) :
    getReminderPriority u = Priority.urgent ↔ DAILY_CRC_ALLOCATION * 5 ≤ u := by
  unfold getReminderPriority
  split_ifs with h1 h2 h3 h4 <;> simp_all [ge_iff_le]

theorem getReminderPriority_high_iff (u : ℚ) :
    getReminderPriority u = Priority.high ↔
      DAILY_CRC_ALLOCATION * 3 ≤ u ∧ u < DAILY_CRC_ALLOCATION * 5 := by
  unfold getReminderPriority
  split_ifs with h1 h2 h3 h4 <;> simp_all [ge_iff_le, not_le]

theorem getReminderPriority_medium_iff (u : ℚ) :
    getReminderPriority u = Priority.medium ↔
      DAILY_CRC_ALLOCATION * 2 ≤ u ∧ u < DAILY_CRC_ALLOCATION * 3 := by
  unfold getReminderPriority
  split_ifs with h1 h2 h3 h4 <;>
    simp_all [ge_iff_le, not_le, DAILY_CRC_ALLOCATION] <;>
    first
      | linarith
      | (intro h; linarith)

theorem getReminderPriority_low_iff (u : ℚ) :
    getReminderPriority u = Priority.low ↔ u < DAILY_CRC_ALLOCATION * 2 := by
  unfold getReminderPriority
  split_ifs with h1 h2 h3 h4 <;>
    simp_all [ge_iff_le, not_le, DAILY_CRC_ALLOCATION] <;>
    linarith

/-- Claim C2 counterexample: the claim's "amount < D maps to none (no
reminder needed)" tier does not exist in the code. `getReminderPriority`
returns `low` for the amount 0 even though 0 is strictly below the daily
unit, so amounts below D land in the same tier the claim reserves for
`[D, 2D)`. -/
theorem priority_below_daily_is_low :
    getReminderPriority 0 = Priority.low ∧
      (0 : ℚ) < DAILY_CRC_ALLOCATION := by
  constructor
  · rw [getReminderPriority_low_iff]
    norm_num [DAILY_CRC_ALLOCATION]
  · norm_num [DAILY_CRC_ALLOCATION]

/-- Claim C2 (amended): with the daily unit D = 24, `getReminderPriority`
maps `amount ≥ 5D` to urgent, `amount ∈ [3D, 5D)` to high,
`amount ∈ [2D, 3D)` to medium, and every amount below 2D — including
amounts below D — to low (the function has no separate "none" tier);
"no reminder needed" is carried solely by `needsReminder`, which holds
exactly when `amount ≥ D`, so `needsReminder 23.999 = false` and
`needsReminder 24 = true`. -/
theorem priority_tiers_and_reminder_boundary :
    (∀ u : ℚ,
      (getReminderPriority u = Priority.urgent ↔
        DAILY_CRC_ALLOCATION * 5 ≤ u) ∧
      (getReminderPriority u = Priority.high ↔
        DAILY_CRC_ALLOCATION * 3 ≤ u ∧ u < DAILY_CRC_ALLOCATION * 5) ∧
      (getReminderPriority u = Priority.medium ↔
        DAILY_CRC_ALLOCATION * 2 ≤ u ∧ u < DAILY_CRC_ALLOCATION * 3) ∧
      (getReminderPriority u = Priority.low ↔ u < DAILY_CRC_ALLOCATION * 2) ∧
      (needsReminder u = true ↔ DAILY_CRC_ALLOCATION ≤ u)) ∧
    needsReminder (23999 / 1000) = false ∧ needsReminder 24 = true := by
  refine ⟨fun u => ⟨getReminderPriority_urgent_iff u,
      getReminderPriority_high_iff u, getReminderPriority_medium_iff u,
      getReminderPriority_low_iff u, needsReminder_iff u⟩, ?_, ?_⟩
  · simp only [needsReminder, ge_iff_le, decide_eq_false_iff_not, not_le]
    norm_num [DAILY_CRC_ALLOCATION]
  · rw [needsReminder_iff]
    norm_num [DAILY_CRC_ALLOCATION]

/-! ## Claim C3 -/

/-- Claim C3 counterexample: for a last claim time one hour in the future
(`now = 0`, `lastClaimTime = 3 600 000 ms`), the hook's accrual
implementation — the one `fetchUserData` actually calls — returns the
amount 0 instead of failing with a future-timestamp error. -/
theorem hook_accrual_future_returns_zero :
    UseCircles.calculateUnclaimedCRC (some 3600000) 0 = Except.ok 0 :=
  hook_accrual_future 3600000 0 (by norm_num)

/-- Claim C3 (amended): the utility module's accrual fails with
`FutureTimestamp` for every `lastClaimTime` strictly later than the
current time; the hook's accrual used by `fetchUserData` instead clamps
such inputs and returns 0. Neither implementation ever returns a negative
amount. -/
theorem accrual_future_behavior :
    ∀ t now : ℚ,
      (now < t →
        CirclesUtils.calculateUnclaimedCRC (some t) now =
          Except.error AccrualError.futureTimestamp ∧
        UseCircles.calculateUnclaimedCRC (some t) now = Except.ok 0) ∧
      (∀ a : ℚ,
        CirclesUtils.calculateUnclaimedCRC (some t) now = Except.ok a →
          0 ≤ a) ∧
      (∀ a : ℚ,
        UseCircles.calculateUnclaimedCRC (some t) now = Except.ok a →
          0 ≤ a) := by
  intro t now
  refine ⟨fun h => ⟨utils_accrual_future t now h, hook_accrual_future t now h⟩,
    fun a ha => utils_accrual_ok_nonneg t now a ha,
    fun a ha => hook_accrual_ok_nonneg t now a ha⟩

/-- Witness for `accrual_future_behavior` at `now = 0`,
`lastClaimTime = now + 1 hour`. -/
theorem accrual_future_behavior_witness :
    CirclesUtils.calculateUnclaimedCRC (some 3600000) 0 =
      Except.error AccrualError.futureTimestamp ∧
    UseCircles.calculateUnclaimedCRC (some 3600000) 0 = Except.ok 0 :=
  (accrual_future_behavior 3600000 0).1 (by norm_num)

/-! ## Claim C6 -/

/-- Claim C6: for every `lastClaimTime` at or before the current time, the
accrual returns `min((now − lastClaimTime) in hours, MAX_UNCLAIMED_DAYS·24)
· HOURLY_CRC_ALLOCATION`; any last claim at least 7 days old yields exactly
`168 · HOURLY_CRC_ALLOCATION`, and a last claim 3 hours ago yields
exactly 3. -/
theorem accrual_formula_and_cap :
    ∀ t now : ℚ, t ≤ now →
      CirclesUtils.calculateUnclaimedCRC (some t) now =
        Except.ok (min ((now - t) / MS_PER_HOUR) (MAX_UNCLAIMED_DAYS * 24) *
          HOURLY_CRC_ALLOCATION) ∧
      (7 * 24 * MS_PER_HOUR ≤ now - t →
        CirclesUtils.calculateUnclaimedCRC (some t) now =
          Except.ok (168 * HOURLY_CRC_ALLOCATION)) ∧
      (t = now - 3 * MS_PER_HOUR →
        CirclesUtils.calculateUnclaimedCRC (some t) now = Except.ok 3) := by
  intro t now h
  refine ⟨utils_accrual_past t now h, fun hcap => ?_, fun h3 => ?_⟩
  · rw [utils_accrual_past t now h]
    have h168 : (168 : ℚ) ≤ (now - t) / MS_PER_HOUR := by
      rw [le_div_iff₀ ms_per_hour_pos]
      linarith
    have hmax : MAX_UNCLAIMED_DAYS * 24 = (168 : ℚ) := by
      norm_num [MAX_UNCLAIMED_DAYS]
    have hmin : min ((now - t) / MS_PER_HOUR) (MAX_UNCLAIMED_DAYS * 24) =
        MAX_UNCLAIMED_DAYS * 24 := by
      apply min_eq_right
      rw [hmax]
      exact h168
    rw [hmin, hmax]
  · rw [utils_accrual_past t now h, h3]
    have hsub : now - (now - 3 * MS_PER_HOUR) = 3 * MS_PER_HOUR := by ring
    rw [hsub]
    have hdiv : 3 * MS_PER_HOUR / MS_PER_HOUR = (3 : ℚ) := by
      rw [mul_div_assoc, div_self (ne_of_gt ms_per_hour_pos), mul_one]
    rw [hdiv]
    have hmin : min (3 : ℚ) (MAX_UNCLAIMED_DAYS * 24) = 3 := by
      apply min_eq_left
      norm_num [MAX_UNCLAIMED_DAYS]
    rw [hmin]
    have hone : (3 : ℚ) * HOURLY_CRC_ALLOCATION = 3 := by
      norm_num [HOURLY_CRC_ALLOCATION]
    rw [hone]

/-- Witness for `accrual_formula_and_cap`: a last claim exactly 3 hours
before `now = 10 800 000 ms` accrues 3 CRC; a last claim at epoch 0 seen
from `now = 604 800 000 ms` (7 days) accrues the 168-hour cap. -/
theorem accrual_formula_and_cap_witness :
    CirclesUtils.calculateUnclaimedCRC (some 0) 10800000 = Except.ok 3 ∧
    CirclesUtils.calculateUnclaimedCRC (some 0) 604800000 =
      Except.ok (168 * HOURLY_CRC_ALLOCATION) :=
  ⟨(accrual_formula_and_cap 0 10800000 (by norm_num)).2.2
      (by norm_num [MS_PER_HOUR]),
   (accrual_formula_and_cap 0 604800000 (by norm_num)).2.1
      (by norm_num [MS_PER_HOUR])⟩

/-! ## Claim C10 -/

/-- Claim C10 counterexample: the two `calculateUnclaimedCRC`
implementations are not extensionally equal — one hour into the future
(`now = 0`, `lastClaimTime = 3 600 000 ms`) the utility version throws
while the hook version returns 0. -/
theorem accrual_implementations_differ :
    CirclesUtils.calculateUnclaimedCRC (some 3600000) 0 ≠
      UseCircles.calculateUnclaimedCRC (some 3600000) 0 := by
  rw [utils_accrual_future 3600000 0 (by norm_num),
    hook_accrual_future 3600000 0 (by norm_num)]
  simp

/-- Claim C10 (amended): the two `calculateUnclaimedCRC` implementations
agree on an absent last claim time and on every last claim time at or
before the current time (same error, same amount); they differ exactly on
future last claim times, where the utility version fails with
`FutureTimestamp` and the hook version returns 0. -/
theorem accrual_implementations_agree_on_past :
    ∀ (o : Option ℚ) (now : ℚ),
      ((∀ t, o = some t → t ≤ now) →
        CirclesUtils.calculateUnclaimedCRC o now =
          UseCircles.calculateUnclaimedCRC o now) ∧
      (∀ t, o = some t → now < t →
        CirclesUtils.calculateUnclaimedCRC o now =
          Except.error AccrualError.futureTimestamp ∧
        UseCircles.calculateUnclaimedCRC o now = Except.ok 0) := by
  intro o now
  constructor
  · intro hpast
    cases o with
    | none => rfl
    | some t =>
      have ht : t ≤ now := hpast t rfl
      rw [utils_accrual_past t now ht, hook_accrual_past t now ht]
      have h1 : MAX_UNCLAIMED_DAYS * 24 = (7 * 24 : ℚ) := by
        norm_num [MAX_UNCLAIMED_DAYS]
      have h2 : HOURLY_CRC_ALLOCATION = UseCircles.CRC_PER_HOUR := rfl
      rw [h1, h2]
  · intro t ho hfut
    subst ho
    exact ⟨utils_accrual_future t now hfut, hook_accrual_future t now hfut⟩

/-- Witness for `accrual_implementations_agree_on_past` at a last claim
10 hours before `now`. -/
theorem accrual_implementations_agree_on_past_witness :
    CirclesUtils.calculateUnclaimedCRC (some 0) 36000000 =
      UseCircles.calculateUnclaimedCRC (some 0) 36000000 :=
  (accrual_implementations_agree_on_past (some 0) 36000000).1
    (by intro t ht; injection ht with h; rw [← h]; norm_num)

/-! ## Claim C7 -/

/-- Claim C7 counterexample: the reminder list is not ordered by
descending unclaimed amount. For the snapshot connection order
`[30 CRC, 50 CRC]` (both above the reminder threshold) the filter output
keeps the original ascending order `[30, 50]`. -/
theorem reminder_order_not_sorted :
    ((connectionsNeedingReminder [connThirty, connFifty]).map
      (fun c => c.unclaimed)) = [30, 50] ∧ (30 : ℚ) < 50 := by
  have h30 : needsReminder (30 : ℚ) = true := by
    rw [needsReminder_iff]
    norm_num [DAILY_CRC_ALLOCATION]
  have h50 : needsReminder (50 : ℚ) = true := by
    rw [needsReminder_iff]
    norm_num [DAILY_CRC_ALLOCATION]
  constructor
  · simp [connectionsNeedingReminder, connThirty, connFifty,
      List.filter, h30, h50]
  · norm_num

/-- Claim C7 (amended): the reminder output is exactly the connections
satisfying the needs-reminder predicate, kept in the snapshot's original
connection order (the code never sorts by amount), and each is rendered
by `generateReminderMessage` as a templated message embedding the display
name, the amount formatted to one decimal place, the human-readable
duration description, and the severity-dependent tone marker (urgency
text and emoji chosen from `getReminderPriority`). -/
theorem reminder_output_shape :
    (∀ (conns : List TrustedConnection) (c : TrustedConnection),
      c ∈ connectionsNeedingReminder conns ↔
        c ∈ conns ∧ needsReminder c.unclaimed = true) ∧
    (∀ conns : List TrustedConnection,
      List.Sublist (connectionsNeedingReminder conns) conns) ∧
    (∀ conns : List TrustedConnection,
      sendAllReminders conns =
        (connectionsNeedingReminder conns).map generateReminderMessage) ∧
    (∀ c : TrustedConnection,
      generateReminderMessage c =
        "Hey " ++ displayNameFor c ++ "! 👋 You have " ++
        formatCRCBalance c.unclaimed ++ " CRC ready to redeem (" ++
        getUnclaimedDescription c.unclaimed ++ ")" ++
        toneText (getReminderPriority c.unclaimed) ++
        " Claim your Circles UBI at https://circles.garden " ++
        toneEmoji (getReminderPriority c.unclaimed) ++
        " #CirclesUBI #BasicIncome") := by
  refine ⟨?_, ?_, ?_, ?_⟩
  · intro conns c
    simp [connectionsNeedingReminder, List.mem_filter]
  · intro conns
    exact List.filter_sublist conns
  · intro conns
    rfl
  · intro c
    rfl

/-! ## Claim C8 -/

theorem retryGo_ratelimit {α : Type} (fn : ℕ → Except ContractCallError α)
    (mr bd : ℕ) (e : ContractCallError) (he : isRateLimitError e = true)
    (hfn : ∀ i, fn i = Except.error e) :
    ∀ n i : ℕ, i + n = mr → 0 < n →
      retryGo fn mr bd i =
        { outcome := RetryOutcome.failure e, attempts := n
          delays := (List.range (n - 1)).map fun k => bd * 2 ^ (i + k) } := by
  intro n
  induction n with
  | zero => intro i hmr h0; omega
  | succ n ih =>
    intro i hmr h0
    have hi : i < mr := by omega
    unfold retryGo
    rw [dif_pos hi]
    simp only [hfn i]
    by_cases hn : 0 < n
    · have hlt : i < mr - 1 := by omega
      rw [if_pos ⟨he, hlt⟩, ih (i + 1) (by omega) hn]
      have hrange : (List.range (n + 1 - 1)).map (fun k => bd * 2 ^ (i + k)) =
          bd * 2 ^ i :: (List.range (n - 1)).map
            (fun k => bd * 2 ^ (i + 1 + k)) := by
        have hn1 : n + 1 - 1 = (n - 1) + 1 := by omega
        rw [hn1, List.range_succ_eq_map, List.map_cons, List.map_map]
        congr 1
        apply List.map_congr_left
        intro k hk
        simp only [Function.comp_apply]
        have hadd : i + Nat.succ k = i + 1 + k := by omega
        rw [hadd]
      rw [hrange]
    · have hn0 : n = 0 := by omega
      subst hn0
      have hnlt : ¬ i < mr - 1 := by omega
      rw [if_neg (fun hand => hnlt hand.2)]
      simp

/-- Claim C8: a call wrapped by `retryContractCall` that hits a rate-limit
error on every attempt performs exactly `maxRetries` attempts (default 3),
sleeping `baseDelay * 2 ^ k` after attempt `k` for `k < maxRetries - 1`,
and then rethrows the rate-limit error; a non-rate-limit error on the
first attempt propagates immediately after exactly one attempt with no
backoff delay. -/
theorem retry_policy {α : Type} (fn fnOther : ℕ → Except ContractCallError α)
    (maxRetries baseDelay : ℕ) (e eOther : ContractCallError) :
    (isRateLimitError e = true → (∀ i, fn i = Except.error e) →
      1 ≤ maxRetries →
      retryContractCall fn maxRetries baseDelay =
        { outcome := RetryOutcome.failure e, attempts := maxRetries
          delays := (List.range (maxRetries - 1)).map
            fun k => baseDelay * 2 ^ k }) ∧
    (isRateLimitError eOther = false → fnOther 0 = Except.error eOther →
      1 ≤ maxRetries →
      retryContractCall fnOther maxRetries baseDelay =
        { outcome := RetryOutcome.failure eOther, attempts := 1
          delays := [] }) := by
  constructor
  · intro he hfn hmr
    have h := retryGo_ratelimit fn maxRetries baseDelay e he hfn maxRetries 0
      (by omega) (by omega)
    rw [retryContractCall, h]
    have hmap : (List.range (maxRetries - 1)).map
        (fun k => baseDelay * 2 ^ (0 + k)) =
        (List.range (maxRetries - 1)).map (fun k => baseDelay * 2 ^ k) := by
      apply List.map_congr_left
      intro k hk
      rw [Nat.zero_add]
    rw [hmap]
  · intro he hf hmr
    rw [retryContractCall]
    unfold retryGo
    rw [dif_pos (show 0 < maxRetries by omega)]
    simp only [hf]
    rw [if_neg]
    intro hand
    rw [he] at hand
    exact Bool.false_ne_true hand.1

/-- Witness for `retry_policy`: with the default bound 3 and base delay
1000 ms, an always-rate-limited call is attempted exactly 3 times with
delays 1000 and 2000 ms and surfaces the rate-limit error; a plain error
is rethrown after a single attempt. -/
theorem retry_policy_witness :
    retryContractCall
        (fun _ => (Except.error rateLimitedErr : Except ContractCallError Unit))
        3 1000 =
      { outcome := RetryOutcome.failure rateLimitedErr, attempts := 3
        delays := [1000, 2000] } ∧
    retryContractCall
        (fun _ => (Except.error plainErr : Except ContractCallError Unit))
        3 1000 =
      { outcome := RetryOutcome.failure plainErr, attempts := 1
        delays := [] } := by
  constructor
  · have h := (retry_policy
        (fun _ => (Except.error rateLimitedErr : Except ContractCallError Unit))
        (fun _ => (Except.error plainErr : Except ContractCallError Unit))
        3 1000 rateLimitedErr plainErr).1
      (by decide) (fun i => rfl) (by omega)
    rw [h]
    have hd : (List.range (3 - 1)).map (fun k => 1000 * 2 ^ k) =
        [1000, 2000] := by decide
    rw [hd]
  · exact (retry_policy
        (fun _ => (Except.error rateLimitedErr : Except ContractCallError Unit))
        (fun _ => (Except.error plainErr : Except ContractCallError Unit))
        3 1000 rateLimitedErr plainErr).2
      (by decide) rfl (by omega)

/-! ## Claim C1 -/

/-- Claim C1 (code bug): the aggregation marks a counterpart as mutual
even when the relation list holds only the single direction root → B.
The `some()` predicate computing `isMutualTrust` is a disjunction whose
second disjunct (`r.truster === address && r.trustee === otherAddress`)
is satisfied by the very relation that produced the counterpart, so for
relations `[(A, B)]` with root A the connection for B already carries
`isMutualTrust = true`, where the claim requires `false`. (With both
directions present it is also `true`, as the claim states.) -/
theorem mutual_flag_set_for_single_direction :
    (trustedConnectionsOf "0xA" [{ truster := "0xA", trustee := "0xB" }]
        mutualExampleEnv 36000000).map
      (fun c => (c.address, c.isMutualTrust)) = [("0xB", true)] ∧
    (trustedConnectionsOf "0xA"
        [{ truster := "0xA", trustee := "0xB" },
         { truster := "0xB", trustee := "0xA" }]
        mutualExampleEnv 36000000).map
      (fun c => (c.address, c.isMutualTrust)) = [("0xB", true)] := by
  constructor
  · decide
  · decide

/-! ## Claim C4 -/

/-- Claim C4 counterexample: the snapshot carries no "unknown" flag. The
snapshot returned when the root's accrual computation fails (no
personalMint history, `rootFailEnv`) is identical — field for field — to
the snapshot returned when the root's accrual genuinely computes to a
confirmed 0 (last claim exactly at the current time, `rootZeroEnv`), so
no consumer of the returned value can distinguish the degraded 0 from a
confirmed 0. -/
theorem root_failure_snapshot_indistinguishable :
    fetchUserData "0xA" [] rootFailEnv 0 =
      fetchUserData "0xA" [] rootZeroEnv 0 ∧
    (fetchUserData "0xA" [] rootFailEnv 0).isOk = true := by
  have hz : UseCircles.calculateUnclaimedCRC (some 0) 0 = Except.ok 0 := by
    rw [hook_accrual_past 0 0 (le_refl 0)]
    have h0 : ((0 : ℚ) - 0) / MS_PER_HOUR = 0 := by
      norm_num
    rw [h0, min_eq_left (by norm_num)]
    norm_num [UseCircles.CRC_PER_HOUR]
  constructor
  · simp [fetchUserData, rootFailEnv, rootZeroEnv, hz, trustedConnectionsOf,
      buildTrustedConnections, dedupByAddress, dedupGo,
      UseCircles.calculateUnclaimedCRC]
  · simp [fetchUserData, rootFailEnv, Except.isOk, Except.toBool]

/-- Claim C4 (amended): when the root's accrual computation fails, the
aggregation does not abort — `fetchUserData` still returns a snapshot and
the root's unclaimed amount degrades to 0 — and the component's balance
card renders that zero as "Unknown" rather than as a confirmed amount;
but the flagging lives in the UI's `unclaimed > 0` test, not in the
snapshot, which is indistinguishable from a confirmed-zero snapshot. -/
theorem root_accrual_failure_degrades :
    ∀ (address : String) (rels : List TrustRelation) (env : Env) (now : ℚ)
      (a0 : AvatarInfo),
      env.avatarInfo address = some a0 →
      env.lastClaim address = none →
      (fetchUserData address rels env now).toOption.map
        (fun d => (d.unclaimed, rootUnclaimedDisplay d)) =
        some (0, RootUnclaimedView.unknown) := by
  intro address rels env now a0 hav hlc
  simp [fetchUserData, hav, hlc, UseCircles.calculateUnclaimedCRC,
    Except.toOption, rootUnclaimedDisplay]

/-- Witness for `root_accrual_failure_degrades` at a registered root with
no personalMint history. -/
theorem root_accrual_failure_degrades_witness :
    (fetchUserData "0xA" [] rootFailEnv 0).toOption.map
      (fun d => (d.unclaimed, rootUnclaimedDisplay d)) =
      some (0, RootUnclaimedView.unknown) :=
  root_accrual_failure_degrades "0xA" [] rootFailEnv 0
    { displayName := none } rfl rfl

/-! ## Claim C5 -/

/-- Claim C5: a counterpart appears in the returned connection list
exactly when some relation names it as the root's counterpart, it is not
the root itself, and its accrual computation succeeds. In particular a
counterpart whose accrual fails (no claim history) is excluded entirely
— the failure is consumed inside the loop (the model is a total
function, so no exception escapes) — while every other counterpart with
a successful accrual is still processed and present. -/
theorem counterpart_accrual_failure_exclusion :
    ∀ (address : String) (rels : List TrustRelation) (env : Env) (now : ℚ)
      (a : String),
      a ∈ (trustedConnectionsOf address rels env now).map
          (fun c => c.address) ↔
        (∃ r ∈ rels, counterpartOf address r = a) ∧ a ≠ address ∧
          (UseCircles.calculateUnclaimedCRC (env.lastClaim a) now).isOk =
            true := by
  intro address rels env now a
  rw [trustedConnectionsOf_eq_keepFirst, keepFirstAux_mem_map]
  have hnil : a ∉ ([] : List String) := List.not_mem_nil a
  simp only [hnil, not_false_iff, and_true]
  constructor
  · intro hmem
    obtain ⟨c, hc, hca⟩ := List.mem_map.mp hmem
    obtain ⟨r, hr, hpr⟩ := List.mem_filterMap.mp hc
    obtain ⟨haddr, hne, hok⟩ :=
      processRelation_some address rels env now r c hpr
    subst hca
    rw [haddr]
    exact ⟨⟨r, hr, rfl⟩, hne, hok⟩
  · rintro ⟨⟨r, hr, hcp⟩, hne, hok⟩
    obtain ⟨c, hpr, hca⟩ := processRelation_of_isOk address rels env now r
      (by rw [hcp]; exact hne) (by rw [hcp]; exact hok)
    exact List.mem_map.mpr
      ⟨c, List.mem_filterMap.mpr ⟨r, hr, hpr⟩, by rw [hca, hcp]⟩

/-- Witness for `counterpart_accrual_failure_exclusion`: for root `0xA`
with the single relation (0xA trusts 0xB), where `0xB` has a claim
history, the counterpart `0xB` is present in the returned list. -/
theorem counterpart_accrual_failure_exclusion_witness :
    "0xB" ∈ (trustedConnectionsOf "0xA"
        [{ truster := "0xA", trustee := "0xB" }]
        mutualExampleEnv 36000000).map (fun c => c.address) :=
  (counterpart_accrual_failure_exclusion "0xA"
      [{ truster := "0xA", trustee := "0xB" }] mutualExampleEnv 36000000
      "0xB").mpr
    ⟨⟨{ truster := "0xA", trustee := "0xB" }, by decide, by decide⟩,
      by decide, rfl⟩

/-! ## Claim C9 -/

/-- Claim C9: the connection list returned by an aggregation call is
deduplicated by counterpart address — its addresses are pairwise distinct,
every counterpart surviving the enrichment loop is represented, each kept
record is the first occurrence of its address and the relative order of
the loop output is preserved — and it never contains the root address
itself. Aggregating relations `[(A,B), (B,A), (A,B)]` for root A yields
exactly the single counterpart B. -/
theorem dedup_and_no_root_invariant :
    (∀ (address : String) (rels : List TrustRelation) (env : Env) (now : ℚ),
      ((trustedConnectionsOf address rels env now).map
        (fun c => c.address)).Nodup ∧
      address ∉ (trustedConnectionsOf address rels env now).map
        (fun c => c.address) ∧
      List.Sublist (trustedConnectionsOf address rels env now)
        (buildTrustedConnections address rels env now) ∧
      (∀ a : String,
        a ∈ (trustedConnectionsOf address rels env now).map
            (fun c => c.address) ↔
          a ∈ (buildTrustedConnections address rels env now).map
            (fun c => c.address)) ∧
      (∀ c ∈ trustedConnectionsOf address rels env now,
        (buildTrustedConnections address rels env now).find?
          (fun d => d.address == c.address) = some c)) ∧
    (trustedConnectionsOf "0xA"
        [{ truster := "0xA", trustee := "0xB" },
         { truster := "0xB", trustee := "0xA" },
         { truster := "0xA", trustee := "0xB" }]
        dedupExampleEnv 36000000).map (fun c => c.address) = ["0xB"] := by
  constructor
  · intro address rels env now
    refine ⟨?_, ?_, ?_, ?_, ?_⟩
    · rw [trustedConnectionsOf_eq_keepFirst]
      exact keepFirstAux_nodup _ _
    · rw [trustedConnectionsOf_eq_keepFirst, keepFirstAux_mem_map]
      rintro ⟨hmem, -⟩
      obtain ⟨c, hc, hca⟩ := List.mem_map.mp hmem
      exact buildTrustedConnections_address_ne address rels env now c hc hca
    · rw [trustedConnectionsOf_eq_keepFirst]
      exact keepFirstAux_sublist _ _
    · intro a
      rw [trustedConnectionsOf_eq_keepFirst, keepFirstAux_mem_map]
      simp
    · intro c hc
      rw [trustedConnectionsOf_eq_keepFirst] at hc
      exact keepFirstAux_find _ _ c hc
  · decide

/-- Witness for `dedup_and_no_root_invariant`: the address list of the
example aggregation is duplicate-free. -/
theorem dedup_and_no_root_invariant_witness :
    ((trustedConnectionsOf "0xA"
        [{ truster := "0xA", trustee := "0xB" },
         { truster := "0xB", trustee := "0xA" },
         { truster := "0xA", trustee := "0xB" }]
        dedupExampleEnv 36000000).map (fun c => c.address)).Nodup :=
  (dedup_and_no_root_invariant.1 "0xA"
      [{ truster := "0xA", trustee := "0xB" },
       { truster := "0xB", trustee := "0xA" },
       { truster := "0xA", trustee := "0xB" }]
      dedupExampleEnv 36000000).1

end CRCNotifier
